import Mathlib

/-!
Verification development for the ROIC simulation core of the
growth-by-science demo impact app (src/src/simulation/roic.py).

The source is Python over IEEE floats; the embedding works over ℚ with the
usual idealized-real-arithmetic reading of the formulas.  Division is the
total division of ℚ (x / 0 = 0); every place where the source could divide
by a non-positive denominator is treated explicitly in the theorems below.
Two operations of the source have no exact rational counterpart and are
abstracted as explicit function parameters, so that every theorem holds for
every choice of them:

* the real power `x ** 0.7` (used only inside the revenue-growth feedback)
  is a parameter `pw : ℚ → ℚ`;
* the square root taken by `np.std` is a parameter `sqrtFn : ℚ → ℚ`
  (applied to the elementwise variance), with `sqrtFn 0 = 0` assumed where
  the claims need it;
* the draw `np.random.normal(mu, 0.05)` is modelled as `mu + noise`, where
  `noise` is the (arbitrary) deviation of the draw from its mean, supplied
  as an explicit stream indexed by scenario, trial and year.  A stubbed,
  noise-free run corresponds to the constantly-zero stream.
-/

namespace Roic

/-- Embedding of `calculate_effective_tax_rate` (roic.py lines 4-34):
the tax rate that, applied to the waste-free operating income, reproduces
the NOPAT actually obtained with the waste. -/
def calculate_effective_tax_rate (revenue cogs non_marketing_opex
    total_marketing_spend waste_percentage tax_rate : ℚ) : ℚ :=
  let effective_marketing := total_marketing_spend * (1 - waste_percentage)
  let wasted_marketing := total_marketing_spend * waste_percentage
  let true_operating_income :=
    revenue - cogs - non_marketing_opex - effective_marketing
  if true_operating_income ≤ 0 then 0
  else
    let actual_operating_income := true_operating_income - wasted_marketing
    let actual_nopat := actual_operating_income * (1 - tax_rate)
    1 - actual_nopat / true_operating_income

/-- Embedding of `np.linspace(0, 1, n)`: `n` evenly spaced points from 0
to 1, endpoints included.  For `n = 1` numpy returns `[0.0]`, which the
formula reproduces in ℚ because `0 / 0 = 0`. -/
def linspace01 (n : ℕ) : List ℚ :=
  (List.range n).map (fun (i : ℕ) => (i : ℚ) / ((n : ℚ) - 1))

/-- Body of the sweep loop of `calculate_roic_improvement`
(roic.py lines 65-80), evaluated at one removal fraction. -/
def roicAtRemoval (revenue cogs non_marketing_opex total_marketing_spend
    effectiveness_percentage tax_rate invested_capital removal_pct : ℚ) : ℚ :=
  let ineffective_spend := total_marketing_spend * (1 - effectiveness_percentage)
  let spend_removed := ineffective_spend * removal_pct
  let current_marketing_spend := total_marketing_spend - spend_removed
  let operating_income :=
    revenue - cogs - non_marketing_opex - current_marketing_spend
  if operating_income ≤ 0 ∨ invested_capital ≤ 0 then 0
  else operating_income * (1 - tax_rate) / invested_capital

/-- Embedding of `calculate_roic_improvement` (roic.py lines 36-82):
the removal-fraction sweep together with the ROIC value at each point. -/
def calculate_roic_improvement (revenue cogs non_marketing_opex
    total_marketing_spend effectiveness_percentage tax_rate invested_capital : ℚ)
    (removal_points : ℕ) : List ℚ × List ℚ :=
  let removal_percentages := linspace01 removal_points
  (removal_percentages,
    removal_percentages.map
      (roicAtRemoval revenue cogs non_marketing_opex total_marketing_spend
        effectiveness_percentage tax_rate invested_capital))

/-- Specification-side single point of the sweep, written with the exact
formula of claim C2: `operating_income = revenue - cogs - non_marketing_opex
- (total_marketing_spend - total_marketing_spend*(1-effectiveness)*removal)`,
and 0 when `operating_income ≤ 0` or `invested_capital ≤ 0`. -/
def specRoicPoint (revenue cogs non_marketing_opex total_marketing_spend
    effectiveness_percentage tax_rate invested_capital removal_fraction : ℚ) : ℚ :=
  let operating_income := revenue - cogs - non_marketing_opex -
    (total_marketing_spend -
      total_marketing_spend * (1 - effectiveness_percentage) * removal_fraction)
  if operating_income ≤ 0 ∨ invested_capital ≤ 0 then 0
  else operating_income * (1 - tax_rate) / invested_capital

/-- ROIC computed directly from a given marketing spend, per the glossary:
NOPAT over invested capital with the degeneracy floor at 0.  Used to state
the endpoint properties of claim C4. -/
def roicOfSpend (revenue cogs non_marketing_opex marketing_spend tax_rate
    invested_capital : ℚ) : ℚ :=
  let operating_income := revenue - cogs - non_marketing_opex - marketing_spend
  if operating_income ≤ 0 ∨ invested_capital ≤ 0 then 0
  else operating_income * (1 - tax_rate) / invested_capital

/-- Scalar parameters of `simulate_multi_year_cumulative_roic`
(roic.py lines 117-132), mirroring the keyword arguments of the source:
the six financial inputs, the two growth rates and the base effectiveness. -/
structure SimParams where
  revenue : ℚ
  cogs : ℚ
  non_marketing_opex : ℚ
  total_marketing_spend : ℚ
  tax_rate : ℚ
  invested_capital : ℚ
  marketing_growth : ℚ
  capital_growth : ℚ
  base_effectiveness : ℚ

/-- Trial-local simulation state of `simulate_multi_year_cumulative_roic`
(roic.py lines 158-165), together with the per-year records accumulated by
the trial loop. -/
structure TrialState where
  current_revenue : ℚ
  current_marketing : ℚ
  current_capital : ℚ
  prior_year_roic : ℚ
  yearly_nopat : List ℚ
  yearly_capital : List ℚ

/-- Constant `roic_impact` of roic.py line 152 (how much ROIC impacts
marketing growth): fixed at 1.0. -/
def roic_impact : ℚ := 1

/-- One iteration of the per-year loop of
`simulate_multi_year_cumulative_roic` (roic.py lines 167-220).  `pw` stands
for the real power `x ** 0.7` of line 206 and `noise` for the deviation of
the `np.random.normal` draw of line 213 from its mean
(`revenue_growth = total_revenue_growth + noise`). -/
def trialYearStep (p : SimParams) (removal_pct : ℚ) (n_years : ℕ)
    (pw : ℚ → ℚ) (noise : ℚ) (year : ℕ) (s : TrialState) : TrialState :=
  let current_marketing :=
    if year = 0 then
      let waste_amount := s.current_marketing * (1 - p.base_effectiveness)
      let removed_waste := waste_amount * removal_pct
      s.current_marketing - removed_waste
    else
      let roic_adjustment := (s.prior_year_roic - 0.05) * roic_impact
      let adjusted_growth := p.marketing_growth + max (-0.1) (min 0.2 roic_adjustment)
      let base_growth := s.current_marketing * adjusted_growth
      let waste_in_growth := base_growth * (1 - p.base_effectiveness)
      let removed_growth_waste := waste_in_growth * removal_pct
      let actual_growth := base_growth - removed_growth_waste
      s.current_marketing + actual_growth
  let operating_income :=
    s.current_revenue - p.cogs - p.non_marketing_opex - current_marketing
  let nopat := max 0 (operating_income * (1 - p.tax_rate))
  let yearly_nopat := s.yearly_nopat ++ [nopat]
  let yearly_capital := s.yearly_capital ++ [s.current_capital]
  let current_roic :=
    if 0 < s.current_capital then nopat / s.current_capital else 0
  if year < n_years - 1 then
    let base_revenue_growth :=
      p.marketing_growth * pw (current_marketing / p.total_marketing_spend)
    let roic_boost := max 0 ((current_roic - 0.05) * 0.7)
    let total_revenue_growth := base_revenue_growth + roic_boost
    let revenue_growth := total_revenue_growth + noise
    { current_revenue := s.current_revenue * (1 + max 0 revenue_growth)
      current_marketing := current_marketing
      current_capital := s.current_capital * (1 + p.capital_growth)
      prior_year_roic := current_roic
      yearly_nopat := yearly_nopat
      yearly_capital := yearly_capital }
  else
    { current_revenue := s.current_revenue
      current_marketing := current_marketing
      current_capital := s.current_capital
      prior_year_roic := s.prior_year_roic
      yearly_nopat := yearly_nopat
      yearly_capital := yearly_capital }

/-- Initial trial state (roic.py lines 161-165). -/
def initTrialState (p : SimParams) : TrialState :=
  { current_revenue := p.revenue
    current_marketing := p.total_marketing_spend
    current_capital := p.invested_capital
    prior_year_roic := 0
    yearly_nopat := []
    yearly_capital := [] }

/-- One full trial: the year loop of roic.py lines 167-220 run for
`n_years` years, with `noise` giving the random deviation for each year. -/
def runTrial (p : SimParams) (removal_pct : ℚ) (n_years : ℕ)
    (pw : ℚ → ℚ) (noise : ℕ → ℚ) : TrialState :=
  (List.range n_years).foldl
    (fun s year => trialYearStep p removal_pct n_years pw (noise year) year s)
    (initTrialState p)

/-- Embedding of `np.cumsum`: the list of running-sum values. -/
def cumsum : List ℚ → List ℚ
  | [] => []
  | x :: xs => x :: (cumsum xs).map (fun y => x + y)

/-- Elementwise division of two equal-length numpy arrays. -/
def divRows : List ℚ → List ℚ → List ℚ
  | a :: as, b :: bs => (a / b) :: divRows as bs
  | _, _ => []

/-- Elementwise sum of two equal-length numpy arrays. -/
def addRows : List ℚ → List ℚ → List ℚ
  | a :: as, b :: bs => (a + b) :: addRows as bs
  | _, _ => []

/-- Elementwise difference of two equal-length numpy arrays. -/
def subRows : List ℚ → List ℚ → List ℚ
  | a :: as, b :: bs => (a - b) :: subRows as bs
  | _, _ => []

/-- Per-trial cumulative ROIC sequence (roic.py lines 222-225):
`cumsum(yearly_nopat) / cumsum(yearly_capital)`, elementwise. -/
def cumulativeRoicsOf (s : TrialState) : List ℚ :=
  divRows (cumsum s.yearly_nopat) (cumsum s.yearly_capital)

/-- Embedding of `np.mean(rows, axis=0)`: the elementwise mean of a
non-empty family of equal-length rows. -/
def meanRows : List (List ℚ) → List ℚ
  | [] => []
  | r :: rs =>
      (rs.foldl addRows r).map (fun x => x / (((r :: rs).length : ℚ)))

/-- Elementwise variance across rows: the mean of the elementwise squared
deviations from the elementwise mean. -/
def varRows (rows : List (List ℚ)) : List ℚ :=
  meanRows (rows.map (fun r => (subRows r (meanRows rows)).map (fun d => d * d)))

/-- Embedding of `np.std(rows, axis=0)`: the elementwise square root of
`varRows`, with the square root abstracted as `sqrtFn`. -/
def stdRows (sqrtFn : ℚ → ℚ) (rows : List (List ℚ)) : List ℚ :=
  (varRows rows).map sqrtFn

/-- All per-trial cumulative-ROIC sequences of one removal scenario
(roic.py lines 155-226): `n_simulations` independent trials, trial `t`
using the noise stream `noise t`. -/
def scenarioRows (p : SimParams) (removal_pct : ℚ) (n_years n_simulations : ℕ)
    (pw : ℚ → ℚ) (noise : ℕ → ℕ → ℚ) : List (List ℚ) :=
  (List.range n_simulations).map
    (fun t => cumulativeRoicsOf (runTrial p removal_pct n_years pw (noise t)))

/-- Embedding of `simulate_multi_year_cumulative_roic`
(roic.py lines 117-235): for each removal scenario, the years `1..n_years`
and the elementwise mean and standard deviation of the per-trial
cumulative-ROIC sequences.  `noise i t y` is the normal-draw deviation for
scenario index `i`, trial `t`, year `y`. -/
def simulate_multi_year_cumulative_roic (p : SimParams)
    (n_years n_simulations : ℕ) (removal_scenarios : List ℚ)
    (pw : ℚ → ℚ) (sqrtFn : ℚ → ℚ) (noise : ℕ → ℕ → ℕ → ℚ) :
    List (ℚ × (List ℕ × List ℚ × List ℚ)) :=
  removal_scenarios.enum.map (fun ir =>
    let rows := scenarioRows p ir.2 n_years n_simulations pw (noise ir.1)
    (ir.2, (List.range' 1 n_years, meanRows rows, stdRows sqrtFn rows)))

/-- Specification-side marketing update of claim C3 for a non-first year:
clip `(prior_year_roic - 0.05) * 1` to `[-0.1, 0.2]`, add it to
`marketing_growth`, and add `base_growth - waste_in_growth * removal` to
the current marketing spend. -/
def specMarketingUpdate (marketing_growth base_effectiveness removal_fraction
    prior_year_roic current_marketing : ℚ) : ℚ :=
  let roic_adjustment := (prior_year_roic - 0.05) * (1 : ℚ)
  let adjusted_growth := marketing_growth + max (-0.1) (min 0.2 roic_adjustment)
  let base_growth := current_marketing * adjusted_growth
  let waste_in_growth := base_growth * (1 - base_effectiveness)
  current_marketing + base_growth - waste_in_growth * removal_fraction

/-! Helper lemmas about the single-year analyzer. -/

/-- The sweep body equals the direct ROIC of the reduced marketing spend. -/
lemma roicAtRemoval_eq_roicOfSpend (revenue cogs non_marketing_opex
    total_marketing_spend effectiveness_percentage tax_rate invested_capital
    removal_pct : ℚ) :
    roicAtRemoval revenue cogs non_marketing_opex total_marketing_spend
      effectiveness_percentage tax_rate invested_capital removal_pct =
    roicOfSpend revenue cogs non_marketing_opex
      (total_marketing_spend -
        total_marketing_spend * (1 - effectiveness_percentage) * removal_pct)
      tax_rate invested_capital := rfl

lemma zero_mem_linspace01 {n : ℕ} (h2 : 2 ≤ n) : (0 : ℚ) ∈ linspace01 n := by
  have h0 : (0 : ℕ) ∈ List.range n := List.mem_range.mpr (by omega)
  unfold linspace01
  exact List.mem_map.mpr ⟨0, h0, by simp⟩

lemma one_mem_linspace01 {n : ℕ} (h2 : 2 ≤ n) : (1 : ℚ) ∈ linspace01 n := by
  have h0 : n - 1 ∈ List.range n := List.mem_range.mpr (by omega)
  unfold linspace01
  refine List.mem_map.mpr ⟨n - 1, h0, ?_⟩
  have hn : (2 : ℚ) ≤ (n : ℚ) := by exact_mod_cast h2
  rw [Nat.cast_sub (by omega), Nat.cast_one]
  exact div_self (by linarith)

lemma linspace01_pairwise (n : ℕ) : (linspace01 n).Pairwise (· ≤ ·) := by
  rcases n with _ | _ | m
  · simp [linspace01]
  · simp [linspace01]
  · have hd : (0 : ℚ) < ((m + 2 : ℕ) : ℚ) - 1 := by push_cast; linarith
    unfold linspace01
    refine List.pairwise_map.mpr ?_
    refine List.Pairwise.imp ?_ (List.pairwise_lt_range _)
    intro i j hij
    exact (div_le_div_iff_of_pos_right hd).mpr (by exact_mod_cast hij.le)

/-- Monotonicity of one sweep point in the removal fraction, under
positive operating income at both points. -/
lemma roicAtRemoval_mono (revenue cogs non_marketing_opex
    total_marketing_spend effectiveness_percentage tax_rate invested_capital
    r1 r2 : ℚ)
    (htms : 0 ≤ total_marketing_spend) (htax : tax_rate ≤ 1)
    (he : effectiveness_percentage ≤ 1) (hic : 0 < invested_capital)
    (h12 : r1 ≤ r2)
    (h1 : 0 < revenue - cogs - non_marketing_opex -
      (total_marketing_spend -
        total_marketing_spend * (1 - effectiveness_percentage) * r1))
    (h2 : 0 < revenue - cogs - non_marketing_opex -
      (total_marketing_spend -
        total_marketing_spend * (1 - effectiveness_percentage) * r2)) :
    roicAtRemoval revenue cogs non_marketing_opex total_marketing_spend
      effectiveness_percentage tax_rate invested_capital r1 ≤
    roicAtRemoval revenue cogs non_marketing_opex total_marketing_spend
      effectiveness_percentage tax_rate invested_capital r2 := by
  unfold roicAtRemoval
  rw [if_neg (by push_neg; exact ⟨by linarith, by linarith⟩),
      if_neg (by push_neg; exact ⟨by linarith, by linarith⟩)]
  apply (div_le_div_iff_of_pos_right hic).mpr
  apply mul_le_mul_of_nonneg_right _ (by linarith)
  nlinarith [mul_nonneg (mul_nonneg htms (by linarith :
    (0 : ℚ) ≤ 1 - effectiveness_percentage)) (by linarith : (0 : ℚ) ≤ r2 - r1)]

/-! Claim theorems about the single-year analyzer. -/

/-- C2: every value of the sweep returned by `calculate_roic_improvement`
is given by the claimed closed formula (0 when operating income or invested
capital is non-positive, `operating_income * (1 - tax_rate) /
invested_capital` otherwise, with the operating income of the reduced
marketing spend), and no value is negative. -/
theorem claim_C2 (revenue cogs non_marketing_opex total_marketing_spend
    effectiveness_percentage tax_rate invested_capital : ℚ)
    (removal_points : ℕ) (htax : tax_rate ≤ 1) :
    (calculate_roic_improvement revenue cogs non_marketing_opex
        total_marketing_spend effectiveness_percentage tax_rate
        invested_capital removal_points).2 =
      (calculate_roic_improvement revenue cogs non_marketing_opex
        total_marketing_spend effectiveness_percentage tax_rate
        invested_capital removal_points).1.map
        (specRoicPoint revenue cogs non_marketing_opex total_marketing_spend
          effectiveness_percentage tax_rate invested_capital) ∧
    ∀ v ∈ (calculate_roic_improvement revenue cogs non_marketing_opex
        total_marketing_spend effectiveness_percentage tax_rate
        invested_capital removal_points).2, 0 ≤ v := by
  constructor
  · rfl
  · intro v hv
    simp only [calculate_roic_improvement, List.mem_map] at hv
    obtain ⟨r, -, rfl⟩ := hv
    simp only [roicAtRemoval]
    split
    · exact le_refl 0
    · next h =>
      push_neg at h
      exact div_nonneg (mul_nonneg h.1.le (by linarith)) h.2.le

/-- Witness for C2 at the worked example of the specification. -/
theorem claim_C2_witness :
    (calculate_roic_improvement 100000000 40000000 20000000 30000000 (1/2)
        (1/4) 70000000 3).2 =
      (calculate_roic_improvement 100000000 40000000 20000000 30000000 (1/2)
        (1/4) 70000000 3).1.map
        (specRoicPoint 100000000 40000000 20000000 30000000 (1/2) (1/4)
          70000000) ∧
    ∀ v ∈ (calculate_roic_improvement 100000000 40000000 20000000 30000000
        (1/2) (1/4) 70000000 3).2, 0 ≤ v :=
  claim_C2 100000000 40000000 20000000 30000000 (1/2) (1/4) 70000000 3
    (by norm_num)

/-- C4 fails as stated: with `removal_points = 1` the sweep returned by
`calculate_roic_improvement` is the single point `[0]` (as `np.linspace(0,
1, 1)` is `[0.0]`), so the endpoint 1 is not included. -/
theorem claim_C4_counterexample :
    ¬ ((1 : ℚ) ∈ (calculate_roic_improvement 100000000 40000000 20000000
      30000000 (1/2) (1/4) 70000000 1).1) := by
  have h : (calculate_roic_improvement 100000000 40000000 20000000 30000000
      (1/2) (1/4) 70000000 1).1 = [0] := by
    norm_num [calculate_roic_improvement, linspace01, List.range_succ]
  rw [h]
  norm_num

/-- C4 amended: for `removal_points ≥ 2` both endpoints 0 and 1 belong to
the returned sweep, the values are the pointwise ROIC of the sweep, the
value at removal fraction 0 equals the ROIC computed directly from the
unmodified marketing spend, and the value at removal fraction 1 equals the
ROIC computed from `total_marketing_spend * effectiveness`. -/
theorem claim_C4_amended (revenue cogs non_marketing_opex
    total_marketing_spend effectiveness_percentage tax_rate invested_capital : ℚ)
    (removal_points : ℕ) (h2 : 2 ≤ removal_points) :
    (0 : ℚ) ∈ (calculate_roic_improvement revenue cogs non_marketing_opex
        total_marketing_spend effectiveness_percentage tax_rate
        invested_capital removal_points).1 ∧
    (1 : ℚ) ∈ (calculate_roic_improvement revenue cogs non_marketing_opex
        total_marketing_spend effectiveness_percentage tax_rate
        invested_capital removal_points).1 ∧
    (calculate_roic_improvement revenue cogs non_marketing_opex
        total_marketing_spend effectiveness_percentage tax_rate
        invested_capital removal_points).2 =
      (calculate_roic_improvement revenue cogs non_marketing_opex
        total_marketing_spend effectiveness_percentage tax_rate
        invested_capital removal_points).1.map
        (roicAtRemoval revenue cogs non_marketing_opex total_marketing_spend
          effectiveness_percentage tax_rate invested_capital) ∧
    roicAtRemoval revenue cogs non_marketing_opex total_marketing_spend
        effectiveness_percentage tax_rate invested_capital 0 =
      roicOfSpend revenue cogs non_marketing_opex total_marketing_spend
        tax_rate invested_capital ∧
    roicAtRemoval revenue cogs non_marketing_opex total_marketing_spend
        effectiveness_percentage tax_rate invested_capital 1 =
      roicOfSpend revenue cogs non_marketing_opex
        (total_marketing_spend * effectiveness_percentage) tax_rate
        invested_capital := by
  refine ⟨zero_mem_linspace01 h2, one_mem_linspace01 h2, rfl, ?_, ?_⟩
  · rw [roicAtRemoval_eq_roicOfSpend]
    congr 1
    ring
  · rw [roicAtRemoval_eq_roicOfSpend]
    congr 1
    ring

/-- Witness for the amended C4 at the worked example of the
specification. -/
theorem claim_C4_amended_witness :
    (0 : ℚ) ∈ (calculate_roic_improvement 100000000 40000000 20000000
        30000000 (1/2) (1/4) 70000000 50).1 ∧
    (1 : ℚ) ∈ (calculate_roic_improvement 100000000 40000000 20000000
        30000000 (1/2) (1/4) 70000000 50).1 ∧
    (calculate_roic_improvement 100000000 40000000 20000000 30000000 (1/2)
        (1/4) 70000000 50).2 =
      (calculate_roic_improvement 100000000 40000000 20000000 30000000 (1/2)
        (1/4) 70000000 50).1.map
        (roicAtRemoval 100000000 40000000 20000000 30000000 (1/2) (1/4)
          70000000) ∧
    roicAtRemoval 100000000 40000000 20000000 30000000 (1/2) (1/4) 70000000
        0 =
      roicOfSpend 100000000 40000000 20000000 30000000 (1/4) 70000000 ∧
    roicAtRemoval 100000000 40000000 20000000 30000000 (1/2) (1/4) 70000000
        1 =
      roicOfSpend 100000000 40000000 20000000 (30000000 * (1/2)) (1/4)
        70000000 :=
  claim_C4_amended 100000000 40000000 20000000 30000000 (1/2) (1/4)
    70000000 50 (by norm_num)

/-- C5: with effectiveness below 1, non-negative marketing spend, tax rate
at most 1, positive invested capital and strictly positive operating income
over the whole sweep, the ROIC values of `calculate_roic_improvement` are
non-decreasing along the sweep. -/
theorem claim_C5 (revenue cogs non_marketing_opex total_marketing_spend
    effectiveness_percentage tax_rate invested_capital : ℚ)
    (removal_points : ℕ)
    (htms : 0 ≤ total_marketing_spend) (htax : tax_rate ≤ 1)
    (he : effectiveness_percentage < 1) (hic : 0 < invested_capital)
    (hoi : ∀ r ∈ (calculate_roic_improvement revenue cogs non_marketing_opex
        total_marketing_spend effectiveness_percentage tax_rate
        invested_capital removal_points).1,
      0 < revenue - cogs - non_marketing_opex -
        (total_marketing_spend -
          total_marketing_spend * (1 - effectiveness_percentage) * r)) :
    (calculate_roic_improvement revenue cogs non_marketing_opex
        total_marketing_spend effectiveness_percentage tax_rate
        invested_capital removal_points).2.Pairwise (· ≤ ·) := by
  have hmap : (calculate_roic_improvement revenue cogs non_marketing_opex
      total_marketing_spend effectiveness_percentage tax_rate
      invested_capital removal_points).2 =
      (linspace01 removal_points).map
        (roicAtRemoval revenue cogs non_marketing_opex total_marketing_spend
          effectiveness_percentage tax_rate invested_capital) := rfl
  rw [hmap, List.pairwise_map]
  refine (linspace01_pairwise removal_points).imp_of_mem ?_
  intro r1 r2 h1 h2 h12
  exact roicAtRemoval_mono revenue cogs non_marketing_opex
    total_marketing_spend effectiveness_percentage tax_rate invested_capital
    r1 r2 htms htax he.le hic h12 (hoi r1 h1) (hoi r2 h2)

/-- Witness for C5 at the worked example of the specification with a
three-point sweep. -/
theorem claim_C5_witness :
    (calculate_roic_improvement 100000000 40000000 20000000 30000000 (1/2)
      (1/4) 70000000 3).2.Pairwise (· ≤ ·) :=
  claim_C5 100000000 40000000 20000000 30000000 (1/2) (1/4) 70000000 3
    (by norm_num) (by norm_num) (by norm_num) (by norm_num)
    (by
      intro r hr
      have h : (calculate_roic_improvement 100000000 40000000 20000000
          30000000 (1/2) (1/4) 70000000 3).1 = [0, 1/2, 1] := by
        norm_num [calculate_roic_improvement, linspace01, List.range_succ]
      rw [h] at hr
      simp only [List.mem_cons, List.not_mem_nil, or_false] at hr
      rcases hr with rfl | rfl | rfl <;> norm_num)

/-- C6: `calculate_effective_tax_rate` returns 0 exactly when the
waste-free operating income is non-positive; otherwise it returns the
non-degenerate closed formula. -/
theorem claim_C6 (revenue cogs non_marketing_opex total_marketing_spend
    waste_percentage tax_rate : ℚ) :
    (revenue - cogs - non_marketing_opex -
        total_marketing_spend * (1 - waste_percentage) ≤ 0 →
      calculate_effective_tax_rate revenue cogs non_marketing_opex
        total_marketing_spend waste_percentage tax_rate = 0) ∧
    (0 < revenue - cogs - non_marketing_opex -
        total_marketing_spend * (1 - waste_percentage) →
      calculate_effective_tax_rate revenue cogs non_marketing_opex
        total_marketing_spend waste_percentage tax_rate =
        1 - ((revenue - cogs - non_marketing_opex -
            total_marketing_spend * (1 - waste_percentage)) -
            total_marketing_spend * waste_percentage) * (1 - tax_rate) /
          (revenue - cogs - non_marketing_opex -
            total_marketing_spend * (1 - waste_percentage))) := by
  constructor
  · intro h
    simp only [calculate_effective_tax_rate]
    rw [if_pos h]
  · intro h
    simp only [calculate_effective_tax_rate]
    rw [if_neg (not_le.mpr h)]

/-- Witness for C6: degenerate branch at an all-zero snapshot, and the
closed formula at the worked example of the specification. -/
theorem claim_C6_witness :
    calculate_effective_tax_rate 0 0 0 0 0 (1/4) = 0 ∧
    calculate_effective_tax_rate 100 40 20 30 (1/2) (1/4) =
      1 - ((100 - 40 - 20 - 30 * (1 - 1/2 : ℚ)) - 30 * (1/2)) * (1 - 1/4) /
        (100 - 40 - 20 - 30 * (1 - 1/2)) :=
  ⟨(claim_C6 0 0 0 0 0 (1/4)).1 (by norm_num),
   (claim_C6 100 40 20 30 (1/2) (1/4)).2 (by norm_num)⟩

/-- C7 fails as stated: at the all-zero snapshot with nominal tax rate 1/4
and no waste, the waste-free operating income is 0, so the degenerate
branch returns 0 rather than the nominal rate. -/
theorem claim_C7_counterexample :
    calculate_effective_tax_rate 0 0 0 0 0 (1/4) ≠ 1/4 := by
  norm_num [calculate_effective_tax_rate]

/-- C7 amended: with strictly positive waste-free operating income,
`calculate_effective_tax_rate` at `waste_percentage = 0` returns exactly
the nominal tax rate. -/
theorem claim_C7_amended (revenue cogs non_marketing_opex
    total_marketing_spend tax_rate : ℚ)
    (h : 0 < revenue - cogs - non_marketing_opex - total_marketing_spend) :
    calculate_effective_tax_rate revenue cogs non_marketing_opex
      total_marketing_spend 0 tax_rate = tax_rate := by
  have h1 : revenue - cogs - non_marketing_opex -
      total_marketing_spend * (1 - 0) =
      revenue - cogs - non_marketing_opex - total_marketing_spend := by ring
  simp only [calculate_effective_tax_rate]
  rw [if_neg (by rw [h1]; exact not_le.mpr h)]
  rw [h1]
  field_simp

/-- Witness for the amended C7 at the worked example of the specification,
where the effective rate at zero waste is exactly 0.25. -/
theorem claim_C7_amended_witness :
    calculate_effective_tax_rate 100000000 40000000 20000000 30000000 0
      (1/4) = 1/4 :=
  claim_C7_amended 100000000 40000000 20000000 30000000 (1/4) (by norm_num)

/-! Helper lemmas about the multi-year projector. -/

/-- Shape of one year step: it appends the current capital to the capital
record, appends a non-negative NOPAT to the NOPAT record, and either grows
the capital by `1 + capital_growth` or leaves it unchanged. -/
lemma trialYearStep_records (p : SimParams) (removal_pct : ℚ) (n_years : ℕ)
    (pw : ℚ → ℚ) (noise : ℚ) (year : ℕ) (s : TrialState) :
    (trialYearStep p removal_pct n_years pw noise year s).yearly_capital =
      s.yearly_capital ++ [s.current_capital] ∧
    (∃ v, 0 ≤ v ∧
      (trialYearStep p removal_pct n_years pw noise year s).yearly_nopat =
        s.yearly_nopat ++ [v]) ∧
    ((trialYearStep p removal_pct n_years pw noise year s).current_capital =
        s.current_capital * (1 + p.capital_growth) ∨
      (trialYearStep p removal_pct n_years pw noise year s).current_capital =
        s.current_capital) := by
  simp only [trialYearStep]
  split
  · exact ⟨rfl, ⟨_, le_max_left 0 _, rfl⟩, Or.inl rfl⟩
  · exact ⟨rfl, ⟨_, le_max_left 0 _, rfl⟩, Or.inr rfl⟩

/-- Loop invariant of the trial year loop: positive current capital, a
record of positive capitals and a record of non-negative NOPATs are
preserved, for any list of year indices. -/
lemma trialLoop_invariant (p : SimParams) (removal_pct : ℚ) (n_years : ℕ)
    (pw : ℚ → ℚ) (noise : ℕ → ℚ) (hcg : 0 ≤ p.capital_growth) :
    ∀ (ys : List ℕ) (s : TrialState), 0 < s.current_capital →
      (∀ x ∈ s.yearly_capital, 0 < x) → (∀ x ∈ s.yearly_nopat, 0 ≤ x) →
      0 < (ys.foldl (fun s year =>
          trialYearStep p removal_pct n_years pw (noise year) year s)
          s).current_capital ∧
      (∀ x ∈ (ys.foldl (fun s year =>
          trialYearStep p removal_pct n_years pw (noise year) year s)
          s).yearly_capital, 0 < x) ∧
      (∀ x ∈ (ys.foldl (fun s year =>
          trialYearStep p removal_pct n_years pw (noise year) year s)
          s).yearly_nopat, 0 ≤ x) := by
  intro ys
  induction ys with
  | nil => intro s h1 h2 h3; exact ⟨h1, h2, h3⟩
  | cons y ys ih =>
    intro s h1 h2 h3
    simp only [List.foldl_cons]
    obtain ⟨hcap, ⟨v, hv, hnp⟩, hcc⟩ :=
      trialYearStep_records p removal_pct n_years pw (noise y) y s
    refine ih _ ?_ ?_ ?_
    · rcases hcc with h | h <;> rw [h]
      · exact mul_pos h1 (by linarith)
      · exact h1
    · rw [hcap]
      intro x hx
      rcases List.mem_append.mp hx with hx | hx
      · exact h2 x hx
      · rw [List.mem_singleton.mp hx]; exact h1
    · rw [hnp]
      intro x hx
      rcases List.mem_append.mp hx with hx | hx
      · exact h3 x hx
      · rw [List.mem_singleton.mp hx]; exact hv

/-- The capital record of a full trial holds only positive values and the
NOPAT record only non-negative ones, given positive initial capital and
non-negative capital growth. -/
lemma runTrial_records (p : SimParams) (removal_pct : ℚ) (n_years : ℕ)
    (pw : ℚ → ℚ) (noise : ℕ → ℚ) (hic : 0 < p.invested_capital)
    (hcg : 0 ≤ p.capital_growth) :
    (∀ x ∈ (runTrial p removal_pct n_years pw noise).yearly_capital, 0 < x) ∧
    (∀ x ∈ (runTrial p removal_pct n_years pw noise).yearly_nopat, 0 ≤ x) := by
  have h := trialLoop_invariant p removal_pct n_years pw noise hcg
    (List.range n_years) (initTrialState p) hic
    (by intro x hx; exact absurd hx (List.not_mem_nil x))
    (by intro x hx; exact absurd hx (List.not_mem_nil x))
  exact ⟨h.2.1, h.2.2⟩

lemma cumsum_pos : ∀ {l : List ℚ}, (∀ x ∈ l, 0 < x) →
    ∀ c ∈ cumsum l, 0 < c := by
  intro l
  induction l with
  | nil => intro _ c hc; exact absurd hc (List.not_mem_nil c)
  | cons x xs ih =>
    intro h c hc
    rcases List.mem_cons.mp hc with rfl | hc
    · exact h c (List.mem_cons_self _ _)
    · obtain ⟨d, hd, rfl⟩ := List.mem_map.mp hc
      have hx := h x (List.mem_cons_self _ _)
      have hdp := ih (fun y hy => h y (List.mem_cons_of_mem x hy)) d hd
      linarith

lemma cumsum_nonneg : ∀ {l : List ℚ}, (∀ x ∈ l, 0 ≤ x) →
    ∀ c ∈ cumsum l, 0 ≤ c := by
  intro l
  induction l with
  | nil => intro _ c hc; exact absurd hc (List.not_mem_nil c)
  | cons x xs ih =>
    intro h c hc
    rcases List.mem_cons.mp hc with rfl | hc
    · exact h c (List.mem_cons_self _ _)
    · obtain ⟨d, hd, rfl⟩ := List.mem_map.mp hc
      have hx := h x (List.mem_cons_self _ _)
      have hdp := ih (fun y hy => h y (List.mem_cons_of_mem x hy)) d hd
      linarith

lemma divRows_nonneg : ∀ (a b : List ℚ), (∀ x ∈ a, 0 ≤ x) →
    (∀ x ∈ b, 0 ≤ x) → ∀ x ∈ divRows a b, 0 ≤ x := by
  intro a
  induction a with
  | nil => intro b _ _ x hx; simp [divRows] at hx
  | cons y ys ih =>
    intro b ha hb x hx
    match b with
    | [] => simp [divRows] at hx
    | z :: zs =>
      rcases List.mem_cons.mp hx with rfl | hx
      · exact div_nonneg (ha y (List.mem_cons_self _ _)) (hb z (List.mem_cons_self _ _))
      · exact ih zs (fun u hu => ha u (List.mem_cons_of_mem y hu))
          (fun u hu => hb u (List.mem_cons_of_mem z hu)) x hx

lemma addRows_nonneg : ∀ (a b : List ℚ), (∀ x ∈ a, 0 ≤ x) →
    (∀ x ∈ b, 0 ≤ x) → ∀ x ∈ addRows a b, 0 ≤ x := by
  intro a
  induction a with
  | nil => intro b _ _ x hx; simp [addRows] at hx
  | cons y ys ih =>
    intro b ha hb x hx
    match b with
    | [] => simp [addRows] at hx
    | z :: zs =>
      rcases List.mem_cons.mp hx with rfl | hx
      · exact add_nonneg (ha y (List.mem_cons_self _ _)) (hb z (List.mem_cons_self _ _))
      · exact ih zs (fun u hu => ha u (List.mem_cons_of_mem y hu))
          (fun u hu => hb u (List.mem_cons_of_mem z hu)) x hx

lemma foldl_addRows_nonneg : ∀ (rows : List (List ℚ)) (acc : List ℚ),
    (∀ x ∈ acc, 0 ≤ x) → (∀ r ∈ rows, ∀ x ∈ r, 0 ≤ x) →
    ∀ x ∈ rows.foldl addRows acc, 0 ≤ x := by
  intro rows
  induction rows with
  | nil => intro acc hacc _ x hx; exact hacc x hx
  | cons r rs ih =>
    intro acc hacc hrows x hx
    simp only [List.foldl_cons] at hx
    exact ih (addRows acc r)
      (addRows_nonneg acc r hacc (hrows r (List.mem_cons_self _ _)))
      (fun u hu => hrows u (List.mem_cons_of_mem r hu)) x hx

lemma meanRows_nonneg {rows : List (List ℚ)}
    (h : ∀ r ∈ rows, ∀ x ∈ r, 0 ≤ x) : ∀ x ∈ meanRows rows, 0 ≤ x := by
  match rows with
  | [] => intro x hx; simp [meanRows] at hx
  | r :: rs =>
    intro x hx
    simp only [meanRows] at hx
    obtain ⟨y, hy, rfl⟩ := List.mem_map.mp hx
    have hyn : 0 ≤ y := foldl_addRows_nonneg rs r (h r (List.mem_cons_self _ _))
      (fun u hu => h u (List.mem_cons_of_mem r hu)) y hy
    exact div_nonneg hyn (by positivity)

lemma meanRows_single (r : List ℚ) : meanRows [r] = r := by
  simp [meanRows]

lemma subRows_self : ∀ (r : List ℚ), ∀ x ∈ subRows r r, x = 0 := by
  intro r
  induction r with
  | nil => intro x hx; simp [subRows] at hx
  | cons y ys ih =>
    intro x hx
    rcases List.mem_cons.mp hx with rfl | hx
    · exact sub_self y
    · exact ih x hx

lemma varRows_single (r : List ℚ) : ∀ x ∈ varRows [r], x = 0 := by
  intro x hx
  have h1 : varRows [r] = (subRows r r).map (fun d => d * d) := by
    simp only [varRows, meanRows_single, List.map_cons, List.map_nil,
      meanRows_single]
  rw [h1] at hx
  obtain ⟨d, hd, rfl⟩ := List.mem_map.mp hx
  rw [subRows_self r d hd]
  exact mul_zero 0

lemma stdRows_single {sqrtFn : ℚ → ℚ} (hs : sqrtFn 0 = 0) (r : List ℚ) :
    ∀ x ∈ stdRows sqrtFn [r], x = 0 := by
  intro x hx
  obtain ⟨v, hv, rfl⟩ := List.mem_map.mp hx
  rw [varRows_single r v hv, hs]

/-- A one-trial scenario consists of exactly the one per-trial sequence. -/
lemma scenarioRows_one (p : SimParams) (removal_pct : ℚ) (n_years : ℕ)
    (pw : ℚ → ℚ) (noise : ℕ → ℕ → ℚ) :
    scenarioRows p removal_pct n_years 1 pw noise =
      [cumulativeRoicsOf (runTrial p removal_pct n_years pw (noise 0))] := by
  simp [scenarioRows, List.range_succ]

/-! Claim theorems about the multi-year projector. -/

/-- C1 fails as stated: the core boundary allows `invested_capital = 0`
(six non-negative reals), and at such an input the cumulative-capital
denominator of the per-trial division `cumsum(nopat)/cumsum(capital)` is 0
when it is reached.  The input here is revenue 1, cogs 0, opex 0, marketing
spend 1, tax rate 0, invested capital 0, zero growth rates, base
effectiveness 1/2, removal scenario 0, one year, one trial. -/
theorem claim_C1_counterexample :
    ¬ (∀ c ∈ cumsum (runTrial ⟨1, 0, 0, 1, 0, 0, 0, 0, 1/2⟩ 0 1
        (fun x => x) (fun _ => 0)).yearly_capital, 0 < c) := by
  intro hall
  have hrun : runTrial ⟨1, 0, 0, 1, 0, 0, 0, 0, 1/2⟩ 0 1 (fun x => x)
      (fun _ => 0) =
      trialYearStep ⟨1, 0, 0, 1, 0, 0, 0, 0, 1/2⟩ 0 1 (fun x => x) 0 0
        (initTrialState ⟨1, 0, 0, 1, 0, 0, 0, 0, 1/2⟩) := by
    simp [runTrial, List.range_succ]
  have h := (trialYearStep_records ⟨1, 0, 0, 1, 0, 0, 0, 0, 1/2⟩ 0 1
    (fun x => x) 0 0 (initTrialState ⟨1, 0, 0, 1, 0, 0, 0, 0, 1/2⟩)).1
  have h0 : (0 : ℚ) ∈ cumsum (runTrial ⟨1, 0, 0, 1, 0, 0, 0, 0, 1/2⟩ 0 1
      (fun x => x) (fun _ => 0)).yearly_capital := by
    rw [hrun, h]
    simp [initTrialState, cumsum]
  exact absurd (hall 0 h0) (lt_irrefl 0)

/-- C1 amended: under the additional boundary conditions
`invested_capital > 0`, `capital_growth ≥ 0` and
`total_marketing_spend > 0`, both unguarded divisions of
`simulate_multi_year_cumulative_roic` execute only with strictly positive
denominators: every running sum of the per-trial capital record (the
denominators of the elementwise `cumsum(nopat)/cumsum(capital)`) is
strictly positive, and the denominator `total_marketing_spend` of the
revenue-growth ratio `current_marketing / total_marketing_spend` is
strictly positive. -/
theorem claim_C1_amended (p : SimParams) (removal_pct : ℚ) (n_years : ℕ)
    (pw : ℚ → ℚ) (noise : ℕ → ℚ) (hic : 0 < p.invested_capital)
    (hcg : 0 ≤ p.capital_growth) (htms : 0 < p.total_marketing_spend) :
    (∀ c ∈ cumsum (runTrial p removal_pct n_years pw noise).yearly_capital,
      0 < c) ∧ 0 < p.total_marketing_spend :=
  ⟨cumsum_pos (runTrial_records p removal_pct n_years pw noise hic hcg).1,
    htms⟩

/-- Witness for the amended C1 at the worked example of the specification:
the cumulative-capital denominator of the one-year run is the concrete
element 70000000 of the record, and the ratio denominator is the concrete
marketing spend 30000000; the theorem shows both positive. -/
theorem claim_C1_amended_witness :
    (0 : ℚ) < 70000000 ∧ (0 : ℚ) < 30000000 :=
  And.intro
    ((claim_C1_amended ⟨100000000, 40000000, 20000000, 30000000, 1/4,
      70000000, 1/10, 1/20, 1/2⟩ (33/100) 1 (fun x => x) (fun _ => 0)
      (by norm_num) (by norm_num) (by norm_num)).1 70000000 (by
        have hrun : runTrial ⟨100000000, 40000000, 20000000, 30000000, 1/4,
            70000000, 1/10, 1/20, 1/2⟩ (33/100) 1 (fun x => x) (fun _ => 0) =
            trialYearStep ⟨100000000, 40000000, 20000000, 30000000, 1/4,
              70000000, 1/10, 1/20, 1/2⟩ (33/100) 1 (fun x => x) 0 0
              (initTrialState ⟨100000000, 40000000, 20000000, 30000000, 1/4,
                70000000, 1/10, 1/20, 1/2⟩) := by
          simp [runTrial, List.range_succ]
        rw [hrun, (trialYearStep_records ⟨100000000, 40000000, 20000000,
          30000000, 1/4, 70000000, 1/10, 1/20, 1/2⟩ (33/100) 1 (fun x => x)
          0 0 (initTrialState ⟨100000000, 40000000, 20000000, 30000000, 1/4,
            70000000, 1/10, 1/20, 1/2⟩)).1]
        simp [initTrialState, cumsum]))
    ((claim_C1_amended ⟨100000000, 40000000, 20000000, 30000000, 1/4,
      70000000, 1/10, 1/20, 1/2⟩ (33/100) 1 (fun x => x) (fun _ => 0)
      (by norm_num) (by norm_num) (by norm_num)).2)

/-- C3: in every non-first year the marketing-spend update of the trial
loop equals the claimed closed form: clip `(prior_year_roic - 0.05) * 1`
to `[-0.1, 0.2]`, add it to `marketing_growth`, and add
`base_growth - waste_in_growth * removal_fraction` to the current spend —
waste removal touches the growth increment only, never the base spend. -/
theorem claim_C3 (p : SimParams) (removal_pct : ℚ) (n_years : ℕ)
    (pw : ℚ → ℚ) (noise : ℚ) (year : ℕ) (s : TrialState) (hy : year ≠ 0) :
    (trialYearStep p removal_pct n_years pw noise year s).current_marketing =
      specMarketingUpdate p.marketing_growth p.base_effectiveness removal_pct
        s.prior_year_roic s.current_marketing := by
  simp only [trialYearStep, specMarketingUpdate, roic_impact, if_neg hy]
  split <;> ring

/-- Witness for C3 in year 1 at concrete state and parameters. -/
theorem claim_C3_witness :
    (trialYearStep ⟨100, 40, 20, 30, 1/4, 70, 1/10, 1/20, 1/2⟩ (33/100) 5
        (fun x => x) 0 1 ⟨100, 30, 70, 2/10, [], []⟩).current_marketing =
      specMarketingUpdate (1/10) (1/2) (33/100) (2/10) 30 :=
  claim_C3 ⟨100, 40, 20, 30, 1/4, 70, 1/10, 1/20, 1/2⟩ (33/100) 5
    (fun x => x) 0 1 ⟨100, 30, 70, 2/10, [], []⟩ (by norm_num)

/-- C8: with `n_years = 1`, the per-trial cumulative-ROIC sequence is the
single value NOPAT over the initial invested capital, with NOPAT equal to
`max 0 (operating_income * (1 - tax_rate))` after the year-0 waste
removal — in particular the sequence has length one and shows no
compounding artifacts, for every removal fraction and every noise draw. -/
theorem claim_C8 (p : SimParams) (removal_pct : ℚ) (pw : ℚ → ℚ)
    (noise : ℕ → ℚ) :
    cumulativeRoicsOf (runTrial p removal_pct 1 pw noise) =
      [max 0 ((p.revenue - p.cogs - p.non_marketing_opex -
          (p.total_marketing_spend -
            p.total_marketing_spend * (1 - p.base_effectiveness) *
              removal_pct)) * (1 - p.tax_rate)) / p.invested_capital] := by
  simp [cumulativeRoicsOf, runTrial, trialYearStep, initTrialState,
    List.range_succ, cumsum, divRows]

/-- C9: with the random draw stubbed to its mean (zero deviation), two
runs of the projector with one trial per scenario produce identical
outputs, and every standard-deviation entry of every scenario is exactly
0 (its variance is 0 and the square root of 0 is 0). -/
theorem claim_C9 (p : SimParams) (n_years : ℕ) (removal_scenarios : List ℚ)
    (pw : ℚ → ℚ) (sqrtFn : ℚ → ℚ) (noise1 noise2 : ℕ → ℕ → ℕ → ℚ)
    (h1 : noise1 = fun _ _ _ => 0) (h2 : noise2 = fun _ _ _ => 0)
    (hs : sqrtFn 0 = 0) :
    simulate_multi_year_cumulative_roic p n_years 1 removal_scenarios pw
        sqrtFn noise1 =
      simulate_multi_year_cumulative_roic p n_years 1 removal_scenarios pw
        sqrtFn noise2 ∧
    ∀ e ∈ simulate_multi_year_cumulative_roic p n_years 1 removal_scenarios
        pw sqrtFn noise1, ∀ x ∈ e.2.2.2, x = 0 := by
  subst h1
  subst h2
  refine ⟨rfl, ?_⟩
  intro e he x hx
  simp only [simulate_multi_year_cumulative_roic, List.mem_map] at he
  obtain ⟨ir, -, rfl⟩ := he
  simp only at hx
  rw [scenarioRows_one] at hx
  exact stdRows_single hs _ x hx

/-- Witness for C9 over two years and the standard scenario set. -/
theorem claim_C9_witness :
    simulate_multi_year_cumulative_roic ⟨100, 40, 20, 30, 1/4, 70, 1/10,
        1/20, 1/2⟩ 2 1 [0, 33/100, 66/100, 99/100] (fun x => x)
        (fun x => x) (fun _ _ _ => 0) =
      simulate_multi_year_cumulative_roic ⟨100, 40, 20, 30, 1/4, 70, 1/10,
        1/20, 1/2⟩ 2 1 [0, 33/100, 66/100, 99/100] (fun x => x)
        (fun x => x) (fun _ _ _ => 0) ∧
    ∀ e ∈ simulate_multi_year_cumulative_roic ⟨100, 40, 20, 30, 1/4, 70,
        1/10, 1/20, 1/2⟩ 2 1 [0, 33/100, 66/100, 99/100] (fun x => x)
        (fun x => x) (fun _ _ _ => 0), ∀ x ∈ e.2.2.2, x = 0 :=
  claim_C9 ⟨100, 40, 20, 30, 1/4, 70, 1/10, 1/20, 1/2⟩ 2
    [0, 33/100, 66/100, 99/100] (fun x => x) (fun x => x) (fun _ _ _ => 0)
    (fun _ _ _ => 0) rfl rfl rfl

/-- C10: with positive invested capital and non-negative capital growth,
every entry of every per-trial cumulative-ROIC sequence is non-negative
(yearly NOPAT is floored at 0 and yearly capital is strictly positive),
and hence so is every entry of the scenario mean sequence — for every
removal fraction, noise stream and trial count. -/
theorem claim_C10 (p : SimParams) (removal_pct : ℚ)
    (n_years n_simulations : ℕ) (pw : ℚ → ℚ) (noise : ℕ → ℕ → ℚ)
    (hic : 0 < p.invested_capital) (hcg : 0 ≤ p.capital_growth) :
    (∀ row ∈ scenarioRows p removal_pct n_years n_simulations pw noise,
      ∀ x ∈ row, 0 ≤ x) ∧
    (∀ x ∈ meanRows (scenarioRows p removal_pct n_years n_simulations pw
      noise), 0 ≤ x) := by
  have hrow : ∀ row ∈ scenarioRows p removal_pct n_years n_simulations pw
      noise, ∀ x ∈ row, 0 ≤ x := by
    intro row hrow
    simp only [scenarioRows, List.mem_map] at hrow
    obtain ⟨t, -, rfl⟩ := hrow
    obtain ⟨hcap, hnp⟩ :=
      runTrial_records p removal_pct n_years pw (noise t) hic hcg
    exact divRows_nonneg _ _ (cumsum_nonneg hnp)
      (cumsum_nonneg (fun x hx => (hcap x hx).le))
  exact ⟨hrow, meanRows_nonneg hrow⟩

/-- Witness for C10 at the worked example of the specification with three
years and two trials. -/
theorem claim_C10_witness :
    (∀ row ∈ scenarioRows ⟨100000000, 40000000, 20000000, 30000000, 1/4,
        70000000, 1/10, 1/20, 1/2⟩ (33/100) 3 2 (fun x => x)
        (fun _ _ => 0), ∀ x ∈ row, 0 ≤ x) ∧
    (∀ x ∈ meanRows (scenarioRows ⟨100000000, 40000000, 20000000, 30000000,
        1/4, 70000000, 1/10, 1/20, 1/2⟩ (33/100) 3 2 (fun x => x)
        (fun _ _ => 0)), 0 ≤ x) :=
  claim_C10 ⟨100000000, 40000000, 20000000, 30000000, 1/4, 70000000, 1/10,
    1/20, 1/2⟩ (33/100) 3 2 (fun x => x) (fun _ _ => 0) (by norm_num)
    (by norm_num)

end Roic
